import Mathlib

/-!
# Verification of the wao-base scrape-normalize-persist-notify core

Shallow embedding, in Lean 4, of the core logic of the wao-base schedule
scraper (a Node.js/TypeScript service): the SQLite-backed persistence
store (`src/database/index.ts` together with the schema in
`src/database/schema.ts`), the HTML schedule extractor
(`src/scraper/index.ts`), the run coordinator (`src/services/scheduler.ts`),
the notification matcher (`src/services/notification-service.ts` and the
Telegram dispatch in `src/bot`), and the offset-literal parser
(`src/utils/time-parser.ts`).

Pure functions of the source are translated into Lean functions; the
stateful database and scheduler are modelled by explicit state passing
over list-backed tables.  Machine integers of the source are modelled by
`Int`/`Nat` (no overflow is reachable in the modelled code paths);
JavaScript `NaN` results are modelled by `Option`, and thrown exceptions
by `Except`.
-/

set_option maxHeartbeats 1000000

namespace WaoBase

/-! ## The shows table (persistence store)

`schema.ts` declares

    CREATE TABLE shows (
      id INTEGER PRIMARY KEY AUTOINCREMENT,
      day TEXT, station_domain TEXT, dj TEXT, title TEXT,
      start_time TEXT, end_time TEXT, style TEXT, created_at DATETIME,
      UNIQUE(day, station_domain, dj, title, start_time, end_time))

and `DatabaseManager.upsertShows` inserts each batch element with
`INSERT ... ON CONFLICT(day, station_domain, dj, title, start_time, end_time)
DO NOTHING` inside one transaction.
-/

/-- A show record as handed to the store (interface `Show` of
`src/types/index.ts`, without the surrogate id / created-at columns that
the database fills in). `endTime` models the source field `end`
(a Lean keyword). -/
structure Show where
  day : String
  stationDomain : String
  dj : String
  title : String
  start : String
  endTime : String
  style : String
  deriving DecidableEq, Repr

/-- The dedup key enforced by
`UNIQUE(day, station_domain, dj, title, start_time, end_time)`. -/
def showKey (s : Show) : String × String × String × String × String × String :=
  (s.day, s.stationDomain, s.dj, s.title, s.start, s.endTime)

/-- A persisted row of the `shows` table: surrogate id plus the record. -/
structure ShowRow where
  id : Int
  record : Show
  deriving DecidableEq, Repr

/-- The `shows` table: rows in insertion (rowid) order, plus the
AUTOINCREMENT counter for the next surrogate id. -/
structure ShowsTable where
  rows : List ShowRow
  nextId : Int
  deriving DecidableEq, Repr

/-- Does the table already hold a row with the given dedup key? -/
def ShowsTable.hasKey (t : ShowsTable)
    (k : String × String × String × String × String × String) : Bool :=
  t.rows.any fun r => decide (showKey r.record = k)

/-- One `INSERT ... ON CONFLICT(dedup key) DO NOTHING`: a conflicting row
is silently skipped (no error, no update); otherwise the record is
appended with a fresh id. -/
def insertShowRow (t : ShowsTable) (s : Show) : ShowsTable :=
  if t.hasKey (showKey s) then t
  else { rows := t.rows ++ [{ id := t.nextId, record := s }], nextId := t.nextId + 1 }

/-- Models `DatabaseManager.upsertShows` (`src/database/index.ts` lines 230-253):
runs the conflict-skipping insert for every batch element, in batch
order, inside one transaction.  The transaction cannot fail in the
modelled (conflict-only) cases, so it is the plain fold. -/
def upsertShows (t : ShowsTable) (batch : List Show) : ShowsTable :=
  batch.foldl insertShowRow t

theorem hasKey_insertShowRow_self (t : ShowsTable) (s : Show) :
    (insertShowRow t s).hasKey (showKey s) = true := by
  unfold insertShowRow
  split
  · assumption
  · simp [ShowsTable.hasKey, List.any_append]

theorem hasKey_insertShowRow_mono (t : ShowsTable) (s : Show)
    (k : String × String × String × String × String × String)
    (h : t.hasKey k = true) : (insertShowRow t s).hasKey k = true := by
  unfold insertShowRow
  split
  · exact h
  · simp only [ShowsTable.hasKey, List.any_append] at h ⊢
    simp [h]

theorem hasKey_upsertShows_mono (B : List Show) (t : ShowsTable)
    (k : String × String × String × String × String × String)
    (h : t.hasKey k = true) : (upsertShows t B).hasKey k = true := by
  induction B generalizing t with
  | nil => simpa [upsertShows]
  | cons b B ih =>
    simp only [upsertShows, List.foldl_cons]
    exact ih _ (hasKey_insertShowRow_mono t b k h)

theorem hasKey_upsertShows_mem (B : List Show) (b : Show) :
    ∀ t : ShowsTable, b ∈ B → (upsertShows t B).hasKey (showKey b) = true := by
  induction B with
  | nil =>
    intro t hb
    cases hb
  | cons c B ih =>
    intro t hb
    simp only [upsertShows, List.foldl_cons]
    rcases List.mem_cons.mp hb with h | h
    · subst h
      exact hasKey_upsertShows_mono B _ _ (hasKey_insertShowRow_self t b)
    · exact ih _ h

theorem insertShowRow_of_hasKey (t : ShowsTable) (s : Show)
    (h : t.hasKey (showKey s) = true) : insertShowRow t s = t := by
  simp [insertShowRow, h]

theorem upsertShows_of_all_hasKey (B : List Show) (t : ShowsTable)
    (h : ∀ b ∈ B, t.hasKey (showKey b) = true) : upsertShows t B = t := by
  induction B with
  | nil => rfl
  | cons b B ih =>
    simp only [upsertShows, List.foldl_cons]
    rw [insertShowRow_of_hasKey t b (h b (List.mem_cons_self b B))]
    exact ih fun c hc => h c (List.mem_cons_of_mem b hc)

/-- C1: upserting the same batch twice leaves the shows store identical to
upserting it once — a row whose dedup key (day, source, dj, title, start,
end) is already present is silently skipped, never updated, so the
first-written row for each key persists and in particular the row count
after `upsert (upsert t B) B` equals the row count after `upsert t B`. -/
theorem upsertShows_idempotent (t : ShowsTable) (B : List Show) :
    upsertShows (upsertShows t B) B = upsertShows t B :=
  upsertShows_of_all_hasKey B (upsertShows t B)
    fun b hb => hasKey_upsertShows_mem B b t hb

/-! ## The days table and the retention sweep

`schema.ts` declares `days (station_domain, day, scraped_at)` with
`PRIMARY KEY (station_domain, day)`, and exports

    cleanupOldData = (retentionDays) =>
      DELETE FROM shows WHERE day < date('now', '-retentionDays days');
      DELETE FROM days  WHERE day < date('now', '-retentionDays days');

`DatabaseManager.cleanupOldData` runs it with `config.retentionDays`.
The columns `day` are ISO `YYYY-MM-DD` TEXT, and SQLite compares TEXT by
byte order, which on ISO dates coincides with chronological order and
with Lean's `<` on `String`.
-/

/-- A row of the `days` table ("known scraped" marker for a
(source, date) pair). `scrapedAt` models the DATETIME column as a
timestamp. -/
structure DayRow where
  stationDomain : String
  day : String
  scrapedAt : Int
  deriving DecidableEq, Repr

/-- Models `DatabaseManager.upsertDay` (`src/database/index.ts` lines 186-195):
`INSERT INTO days ... ON CONFLICT(station_domain, day) DO UPDATE SET
scraped_at = excluded.scraped_at`. -/
def upsertDay (days : List DayRow) (d : DayRow) : List DayRow :=
  if days.any fun r => decide (r.stationDomain = d.stationDomain ∧ r.day = d.day) then
    days.map fun r =>
      if r.stationDomain = d.stationDomain ∧ r.day = d.day then
        { r with scrapedAt := d.scrapedAt }
      else r
  else days ++ [d]

/-- Is a (source, date) pair marked as scraped in the days table? -/
def hasDayRow (days : List DayRow) (stationDomain day : String) : Bool :=
  days.any fun r => decide (r.stationDomain = stationDomain ∧ r.day = day)

/-- Models `cleanupOldData` (`src/database/schema.ts` lines 144-150, executed by
`DatabaseManager.cleanupOldData`): deletes from both tables every row
with `day < cutoff`, where `cutoff` stands for the ISO date string
`date('now', '-retentionDays days')`, i.e. today minus the retention
window. -/
def cleanupOldData (t : ShowsTable) (days : List DayRow) (cutoff : String) :
    ShowsTable × List DayRow :=
  ({ t with rows := t.rows.filter fun r => !decide (r.record.day < cutoff) },
   days.filter fun r => !decide (r.day < cutoff))

/-- The `ORDER BY day, start_time` order of `getShows`: ascending by day,
ties by start time (both TEXT, hence lexicographic). -/
def showOrderLe (a b : ShowRow) : Prop :=
  a.record.day < b.record.day ∨
    (a.record.day = b.record.day ∧ a.record.start ≤ b.record.start)

instance : DecidableRel showOrderLe := fun a b => by
  unfold showOrderLe
  infer_instance

/-- Models `DatabaseManager.getShows` (`src/database/index.ts` lines 198-228):
filters by station, then by the exact date if given, else by the range
only when BOTH bounds are given, and returns the rows ordered by
(day, start_time). -/
def getShows (t : ShowsTable) (stationDomain : String)
    (date fromDate toDate : Option String) : List ShowRow :=
  let base : List ShowRow :=
    t.rows.filter fun r => decide (r.record.stationDomain = stationDomain)
  let filtered : List ShowRow :=
    match date with
    | some d => base.filter fun r => decide (r.record.day = d)
    | none =>
      match fromDate, toDate with
      | some f, some u => base.filter fun r => decide (f ≤ r.record.day ∧ r.record.day ≤ u)
      | _, _ => base
  filtered.insertionSort showOrderLe

/-- C10: calling `getShows` with no exact date and only one of the two
range bounds (`from` without `to`, or `to` without `from`) silently
ignores the supplied bound: the result is exactly the result of the
unbounded query, which contains every stored row of the station (its
length is the number of rows for that station). -/
theorem getShows_single_bound_ignored (t : ShowsTable) (station f u : String) :
    getShows t station none (some f) none = getShows t station none none none
  ∧ getShows t station none none (some u) = getShows t station none none none
  ∧ (getShows t station none none none).length
      = (t.rows.filter fun r => decide (r.record.stationDomain = station)).length := by
  refine ⟨rfl, rfl, ?_⟩
  exact List.Perm.length_eq (List.perm_insertionSort showOrderLe _)

/-! ## The run coordinator (`src/services/scheduler.ts`)

`SchedulerService` keeps a private boolean `isRunning`.  The cron
callback and `runScheduledScrape` itself both drop the trigger when
`isRunning` is set; `runManualScrape` (the "run now" entry point used by
`POST /api/scrape`) contains no such check and never touches the flag.
The network is modelled by an oracle `scrape : station → date →
ScrapeResult` standing for `ScraperManager.scrapeStation`. -/

/-- Models `interface ScrapedShow` (`src/types/index.ts`). -/
structure ScrapedShow where
  dj : String
  title : String
  start : String
  endTime : String
  style : String
  deriving DecidableEq, Repr

/-- Models `interface ScrapeResult` (`src/types/index.ts`); the optional
log-only `error` message is not modelled. -/
structure ScrapeResult where
  station : String
  date : String
  shows : List ScrapedShow
  success : Bool
  deriving DecidableEq, Repr

/-- Models `interface Station` / the `stations` table row. -/
structure Station where
  domain : String
  name : String
  enabled : Bool
  lastScraped : Option Int
  deriving DecidableEq, Repr

/-- The mutable state reachable from the scheduler: the three store
tables plus the private `isRunning` flag of `SchedulerService`. -/
structure World where
  stations : List Station
  days : List DayRow
  shows : ShowsTable
  isRunning : Bool
  deriving DecidableEq, Repr

/-- Models `DatabaseManager.getStation`: `SELECT * FROM stations WHERE domain = ?`. -/
def getStation (stations : List Station) (domain : String) : Option Station :=
  stations.find? fun s => decide (s.domain = domain)

/-- Models `DatabaseManager.upsertStation`: `INSERT ... ON CONFLICT(domain) DO
UPDATE SET name, enabled, last_scraped`. -/
def upsertStation (stations : List Station) (s : Station) : List Station :=
  if stations.any fun r => decide (r.domain = s.domain) then
    stations.map fun r => if r.domain = s.domain then s else r
  else stations ++ [s]

/-- Models `SchedulerService.saveShows` (`scheduler.ts` lines 417-437): upsert
the day record for the pair, then upsert the batch of converted show
records. -/
def saveShows (w : World) (now : Int) (stationDomain date : String)
    (shows : List ScrapedShow) : World :=
  let days := upsertDay w.days { stationDomain := stationDomain, day := date, scrapedAt := now }
  let showRecords : List Show := shows.map fun s =>
    { day := date, stationDomain := stationDomain, dj := s.dj, title := s.title,
      start := s.start, endTime := s.endTime, style := s.style }
  { w with days := days, shows := upsertShows w.shows showRecords }

/-- One (station, date) unit of a run (`scheduler.ts` lines 337-350 and
397-409): fetch+extract via the oracle, then persist via `saveShows`
only when the fetch succeeded AND at least one show was extracted
(`if (result.success && result.shows.length > 0)`). -/
def processScrapeUnit (scrape : String → String → ScrapeResult) (now : Int)
    (w : World) (stationDomain date : String) : World :=
  let result := scrape stationDomain date
  if result.success && decide (0 < result.shows.length) then
    saveShows w now stationDomain date result.shows
  else w

/-- The inner per-station date loop shared by both run entry points. -/
def scrapeDatesFold (scrape : String → String → ScrapeResult) (now : Int)
    (stationDomain : String) (dates : List String) (w : World) : World :=
  dates.foldl (fun a date => processScrapeUnit scrape now a stationDomain date) w

/-- One station of `SchedulerService.runScheduledScrape` (lines 325-371):
skip unknown or disabled stations, process all dates, then stamp
`lastScraped`. -/
def scheduledStationStep (scrape : String → String → ScrapeResult) (now : Int)
    (dates : List String) (acc : World) (stationDomain : String) : World :=
  match getStation acc.stations stationDomain with
  | none => acc
  | some stn =>
    if !stn.enabled then acc
    else
      let acc2 := scrapeDatesFold scrape now stationDomain dates acc
      { acc2 with stations := upsertStation acc2.stations { stn with lastScraped := some now } }

/-- Models `SchedulerService.runScheduledScrape` (`scheduler.ts` lines 312-382):
drops the trigger if `isRunning` is already set; otherwise sets the
flag, processes every configured station over the date window, runs the
retention cleanup once, and clears the flag in the `finally` block.
`cutoff` is the retention cutoff date handed to `cleanupOldData`. -/
def runScheduledScrape (scrape : String → String → ScrapeResult)
    (cfgStations : List String) (dates : List String) (now : Int) (cutoff : String)
    (w : World) : World :=
  if w.isRunning then w
  else
    let w1 := { w with isRunning := true }
    let w2 := cfgStations.foldl (scheduledStationStep scrape now dates) w1
    let cleaned := cleanupOldData w2.shows w2.days cutoff
    { w2 with shows := cleaned.1, days := cleaned.2, isRunning := false }

/-- One station of `SchedulerService.runManualScrape` (lines 390-414):
only the existence of the station row is checked (not `enabled`), then
all target dates are processed; no timestamp update, no cleanup. -/
def manualStationStep (scrape : String → String → ScrapeResult) (now : Int)
    (targetDates : List String) (acc : World) (stationDomain : String) : World :=
  match getStation acc.stations stationDomain with
  | none => acc
  | some _ => scrapeDatesFold scrape now stationDomain targetDates acc

/-- Models `SchedulerService.runManualScrape` (`scheduler.ts` lines 384-415),
the "run now" entry point behind `POST /api/scrape`: NO `isRunning`
check, the flag is neither read nor written.  `defaultDates` models
`generateDateRange()` (yesterday through +5 days). -/
def runManualScrape (scrape : String → String → ScrapeResult)
    (cfgStations defaultDates : List String) (now : Int)
    (station : Option String) (dates : Option (List String)) (w : World) : World :=
  let targetStations := match station with | some s => [s] | none => cfgStations
  let targetDates := dates.getD defaultDates
  targetStations.foldl (manualStationStep scrape now targetDates) w

theorem scrapeDatesFold_cons (scrape : String → String → ScrapeResult) (now : Int)
    (st d : String) (ds : List String) (w : World) :
    scrapeDatesFold scrape now st (d :: ds) w
      = scrapeDatesFold scrape now st ds (processScrapeUnit scrape now w st d) := rfl

theorem saveShows_isRunning_set (w : World) (b : Bool) (now : Int) (st d : String)
    (shows : List ScrapedShow) :
    saveShows { w with isRunning := b } now st d shows
      = { saveShows w now st d shows with isRunning := b } := rfl

theorem processScrapeUnit_isRunning_set (scrape : String → String → ScrapeResult)
    (now : Int) (w : World) (b : Bool) (st d : String) :
    processScrapeUnit scrape now { w with isRunning := b } st d
      = { processScrapeUnit scrape now w st d with isRunning := b } := by
  unfold processScrapeUnit
  by_cases h : ((scrape st d).success && decide (0 < (scrape st d).shows.length)) = true
  · rw [if_pos h, if_pos h, saveShows_isRunning_set]
  · rw [if_neg h, if_neg h]

theorem scrapeDatesFold_isRunning_set (scrape : String → String → ScrapeResult)
    (now : Int) (st : String) (dates : List String) (w : World) (b : Bool) :
    scrapeDatesFold scrape now st dates { w with isRunning := b }
      = { scrapeDatesFold scrape now st dates w with isRunning := b } := by
  induction dates generalizing w with
  | nil => rfl
  | cons d ds ih =>
    rw [scrapeDatesFold_cons, scrapeDatesFold_cons, processScrapeUnit_isRunning_set]
    exact ih _

theorem manualStationStep_isRunning_set (scrape : String → String → ScrapeResult)
    (now : Int) (tds : List String) (acc : World) (b : Bool) (dom : String) :
    manualStationStep scrape now tds { acc with isRunning := b } dom
      = { manualStationStep scrape now tds acc dom with isRunning := b } := by
  unfold manualStationStep
  rcases hg : getStation acc.stations dom with _ | stn
  · simp [hg]
  · simp [hg, scrapeDatesFold_isRunning_set]

theorem manualFold_isRunning_set (scrape : String → String → ScrapeResult)
    (now : Int) (tds : List String) (ts : List String) (w : World) (b : Bool) :
    ts.foldl (manualStationStep scrape now tds) { w with isRunning := b }
      = { ts.foldl (manualStationStep scrape now tds) w with isRunning := b } := by
  induction ts generalizing w with
  | nil => rfl
  | cons s ss ih =>
    simp only [List.foldl_cons]
    rw [manualStationStep_isRunning_set]
    exact ih _

/-- The station row used in the concrete scenarios below. -/
def cexStation : Station :=
  { domain := "technobase.fm", name := "Technobase.FM", enabled := true, lastScraped := none }

/-- A scrape oracle that always succeeds with one extracted show. -/
def cexScrape : String → String → ScrapeResult := fun st d =>
  { station := st, date := d,
    shows := [{ dj := "DJ Cloud Seven", title := "Night Show", start := "20:00",
                endTime := "22:00", style := "HandsUp" }],
    success := true }

/-- A world in which a scrape run is currently active (`isRunning = true`)
and the data tables are still empty. -/
def cexBusyWorld : World :=
  { stations := [cexStation], days := [], shows := { rows := [], nextId := 1 },
    isRunning := true }

/-- C3 counterexample: while a scrape run is active
(`cexBusyWorld.isRunning = true`), the on-demand `runManualScrape`
trigger is NOT dropped: it fetches and persists — the empty shows table
gains a row — refuting the claim that any new trigger during an active
run performs no fetching or persisting. -/
theorem runManualScrape_not_single_flight_cex :
    cexBusyWorld.isRunning = true
  ∧ (runManualScrape cexScrape ["technobase.fm"] ["2025-01-15"] 0
        (some "technobase.fm") none cexBusyWorld).shows.rows.length = 1 :=
  ⟨rfl, rfl⟩

/-- C3 amended: only the scheduled trigger path is single-flight — a
recurring trigger arriving while `isRunning` is set is dropped without
queueing and without any fetch or persist (`runScheduledScrape` is the
identity); the on-demand `runManualScrape`, by contrast, never consults
the flag: its effect on the store is the same whatever the flag's value,
and it leaves the flag unchanged, so an on-demand run proceeds even
while another run is active. -/
theorem single_flight_scheduled_only (scrape : String → String → ScrapeResult)
    (cfgStations dates defaultDates : List String) (now : Int) (cutoff : String)
    (station : Option String) (manualDates : Option (List String)) (w : World)
    (b : Bool) (h : w.isRunning = true) :
    runScheduledScrape scrape cfgStations dates now cutoff w = w
  ∧ runManualScrape scrape cfgStations defaultDates now station manualDates
        { w with isRunning := b }
      = { runManualScrape scrape cfgStations defaultDates now station manualDates w
          with isRunning := b } := by
  constructor
  · unfold runScheduledScrape
    rw [if_pos h]
  · unfold runManualScrape
    exact manualFold_isRunning_set scrape now _ _ w b

theorem single_flight_scheduled_only_witness :
    runScheduledScrape cexScrape ["technobase.fm"] ["2025-01-15"] 0 "2025-01-01"
        cexBusyWorld = cexBusyWorld
  ∧ runManualScrape cexScrape ["technobase.fm"] ["2025-01-15"] 0 none none
        { cexBusyWorld with isRunning := true }
      = { runManualScrape cexScrape ["technobase.fm"] ["2025-01-15"] 0 none none
          cexBusyWorld with isRunning := true } :=
  single_flight_scheduled_only cexScrape ["technobase.fm"] ["2025-01-15"]
    ["2025-01-15"] 0 "2025-01-01" none none cexBusyWorld true rfl

/-- A scrape oracle whose fetch+extract completes successfully but with
zero extracted items. -/
def emptySuccessScrape : String → String → ScrapeResult := fun st d =>
  { station := st, date := d, shows := [], success := true }

/-- An idle world with empty data tables. -/
def cexIdleWorld : World :=
  { stations := [cexStation], days := [], shows := { rows := [], nextId := 1 },
    isRunning := false }

/-- C4 counterexample: a (source, date) fetch that completes successfully
with zero extracted items does NOT upsert the day record — the world is
left unchanged and the days table stays empty — refuting the claim that
the DayRecord is upserted for every completed fetch, including empty
ones. -/
theorem processScrapeUnit_known_empty_cex :
    (emptySuccessScrape "technobase.fm" "2025-01-15").success = true
  ∧ processScrapeUnit emptySuccessScrape 0 cexIdleWorld "technobase.fm" "2025-01-15"
      = cexIdleWorld
  ∧ hasDayRow (processScrapeUnit emptySuccessScrape 0 cexIdleWorld "technobase.fm"
        "2025-01-15").days "technobase.fm" "2025-01-15" = false :=
  ⟨rfl, rfl, rfl⟩

theorem hasDayRow_upsertDay_self (days : List DayRow) (st d : String) (now : Int) :
    hasDayRow (upsertDay days { stationDomain := st, day := d, scrapedAt := now })
      st d = true := by
  unfold upsertDay
  split
  · rename_i h
    rw [List.any_eq_true] at h
    obtain ⟨r, hr, hp⟩ := h
    rw [decide_eq_true_iff] at hp
    unfold hasDayRow
    rw [List.any_eq_true]
    refine ⟨if r.stationDomain = st ∧ r.day = d then { r with scrapedAt := now } else r,
      List.mem_map_of_mem _ hr, ?_⟩
    rw [if_pos hp]
    simp [hp.1, hp.2]
  · unfold hasDayRow
    simp [List.any_append]

/-- C4 amended: after the coordinator processes a (source, date) unit,
the day record for that pair is present iff it was already present or
the fetch succeeded with at least one extracted item.  A successful
fetch that extracts zero items leaves the days table untouched, so
"known empty" days are NOT recorded and remain indistinguishable from
never-attempted days. -/
theorem processScrapeUnit_day_record_iff (scrape : String → String → ScrapeResult)
    (now : Int) (w : World) (st d : String) :
    hasDayRow (processScrapeUnit scrape now w st d).days st d = true
  ↔ (hasDayRow w.days st d = true
      ∨ ((scrape st d).success = true ∧ (scrape st d).shows ≠ [])) := by
  unfold processScrapeUnit
  by_cases h : ((scrape st d).success && decide (0 < (scrape st d).shows.length)) = true
  · rw [if_pos h]
    rw [Bool.and_eq_true, decide_eq_true_iff] at h
    constructor
    · intro _
      exact Or.inr ⟨h.1, List.length_pos.mp h.2⟩
    · intro _
      simpa [saveShows] using hasDayRow_upsertDay_self w.days st d now
  · rw [if_neg h]
    rw [Bool.and_eq_true, decide_eq_true_iff] at h
    constructor
    · exact Or.inl
    · rintro (hd | ⟨hs, hne⟩)
      · exact hd
      · exact absurd ⟨hs, List.length_pos.mpr hne⟩ h

/-! ## The offset-literal parser (`src/utils/time-parser.ts`)

JavaScript semantics modelled explicitly: `parseFloat` parses the
longest numeric prefix and yields `NaN` (here `none`) when there is
none; `Math.round(NaN)` is `NaN`, so a `d`/`h`/`m`-suffixed literal with
a non-numeric prefix produces `NaN` WITHOUT throwing; only the final
bare-number branch throws.  The `"Infinity"` form of `parseFloat` is
unreachable here because the input is lowercased first and the match is
case-sensitive.  `Math.round` rounds half toward positive infinity. -/

/-- Trim of leading and trailing whitespace (JS `String.prototype.trim`). -/
def jsTrim (s : String) : String :=
  ⟨((s.data.dropWhile Char.isWhitespace).reverse.dropWhile Char.isWhitespace).reverse⟩

/-- Lower-casing (JS `String.prototype.toLowerCase`; ASCII suffices for
the alphabet this parser inspects). -/
def jsToLower (s : String) : String :=
  ⟨s.data.map Char.toLower⟩

/-- Numeric value of a digit string (most significant first). -/
def digitsToNat (ds : List Char) : Nat :=
  ds.foldl (fun acc c => acc * 10 + (c.toNat - '0'.toNat)) 0

/-- A parsed decimal number with exact value `m × 10 ^ e` — the exact
rational denoted by a JS numeric literal (the model ignores the final
binary-float rounding of JS numbers, which does not affect the minute
counts of the literals handled here). -/
structure DecValue where
  m : Int
  e : Int
  deriving DecidableEq, Repr

/-- Multiplication of a decimal value by an integer constant. -/
def DecValue.scale (v : DecValue) (k : Int) : DecValue := ⟨v.m * k, v.e⟩

/-- Models JS `parseFloat`: optional sign, longest run of digits, an
optional fraction, and a well-formed optional exponent; `none` models
`NaN` (no parseable numeric prefix).  Trailing junk is ignored, exactly
as in JS; the `"Infinity"` form is unreachable at the call sites because
they lowercase first. -/
def jsParseFloat (l : List Char) : Option DecValue :=
  let signAndRest : Int × List Char :=
    match l with
    | '-' :: rest => (-1, rest)
    | '+' :: rest => (1, rest)
    | _ => (1, l)
  let sgn := signAndRest.1
  let l1 := signAndRest.2
  let intDs := l1.takeWhile Char.isDigit
  let l2 := l1.dropWhile Char.isDigit
  let fracAndRest : List Char × List Char :=
    match l2 with
    | '.' :: rest => (rest.takeWhile Char.isDigit, rest.dropWhile Char.isDigit)
    | _ => ([], l2)
  let fracDs := fracAndRest.1
  let l3 := fracAndRest.2
  if intDs.isEmpty && fracDs.isEmpty then none
  else
    let expPart : Int :=
      match l3 with
      | 'e' :: rest =>
        let esignAndRest : Int × List Char :=
          match rest with
          | '-' :: r => (-1, r)
          | '+' :: r => (1, r)
          | _ => (1, rest)
        let eDs := esignAndRest.2.takeWhile Char.isDigit
        if eDs.isEmpty then 0 else esignAndRest.1 * (digitsToNat eDs : Int)
      | _ => 0
    some { m := sgn * (digitsToNat (intDs ++ fracDs) : Int),
           e := expPart - (fracDs.length : Int) }

/-- Models JS `Math.round` on an exact decimal value: round half toward
positive infinity, `⌊x + 1/2⌋`.  For a nonnegative exponent the value
is the integer itself; otherwise `⌊(2·m + 10^(−e)) / (2·10^(−e))⌋` via
flooring integer division. -/
def jsRound (v : DecValue) : Int :=
  if 0 ≤ v.e then v.m * (10 : Int) ^ v.e.toNat
  else
    let d : Int := (10 : Int) ^ (-v.e).toNat
    Int.fdiv (2 * v.m + d) (2 * d)

/-- Models `parseNotificationTime` (`src/utils/time-parser.ts` lines
77-105).  The `Except` error is the thrown `Invalid time format`; the
inner `Option ℤ` is the returned minute count, `none` standing for a
`NaN` return (reachable on the suffixed branches, which never throw). -/
def parseNotificationTime (timeStr : String) : Except String (Option Int) :=
  let normalized := jsToLower (jsTrim timeStr)
  let l := normalized.data
  if l.getLast? = some 'd' then
    Except.ok ((jsParseFloat l.dropLast).map fun days => jsRound (days.scale (24 * 60)))
  else if l.getLast? = some 'h' then
    Except.ok ((jsParseFloat l.dropLast).map fun hours => jsRound (hours.scale 60))
  else if l.getLast? = some 'm' then
    Except.ok ((jsParseFloat l.dropLast).map fun minutes => jsRound minutes)
  else
    match jsParseFloat l with
    | some decimalHours => Except.ok (some (jsRound (decimalHours.scale 60)))
    | none => Except.error ("Invalid time format: " ++ timeStr)

/-- Split on a separator character (JS `String.prototype.split` with a
single-character separator). -/
def splitOnChar (c : Char) : List Char → List (List Char)
  | [] => [[]]
  | x :: xs =>
    let rest := splitOnChar c xs
    if x = c then [] :: rest
    else
      match rest with
      | [] => [[x]]
      | g :: gs => (x :: g) :: gs

/-- Models `parseNotificationTimes` (lines 111-114): split on commas,
trim, drop empties, then parse each part — the first throw aborts the
whole call. -/
def parseNotificationTimes (timeStr : String) : Except String (List (Option Int)) :=
  let times := (((splitOnChar ',' timeStr.data).map fun t => jsTrim ⟨t⟩).filter
    fun t => decide (0 < t.length))
  times.mapM parseNotificationTime

/-- Models `isValidNotificationTime` (lines 134-141). -/
def isValidNotificationTime (timeStr : String) : Bool :=
  match parseNotificationTime timeStr with
  | .ok _ => true
  | .error _ => false

/-- Models `isValidNotificationTimes` (lines 146-153), the validation run
at preference-write time. -/
def isValidNotificationTimes (timeStr : String) : Bool :=
  match parseNotificationTimes timeStr with
  | .ok _ => true
  | .error _ => false

/-- C9 counterexample: the literal `"abcd"` is not of the form
`<number>d`, `<number>h`, `<number>m`, nor a bare decimal number
(`parseFloat "abc"` is NaN and `parseFloat "abcd"` is NaN), yet
`parseNotificationTime` does not throw on it — the `d` branch returns
the NaN result — and both validators accept it.  This refutes the claim
that every string not of the claimed forms raises a validation error and
that `isValidNotificationTimes` rejects every invalid literal. -/
theorem parseNotificationTime_invalid_accepted_cex :
    jsParseFloat "abc".data = none
  ∧ jsParseFloat "abcd".data = none
  ∧ parseNotificationTime "abcd" = Except.ok none
  ∧ isValidNotificationTime "abcd" = true
  ∧ isValidNotificationTimes "abcd" = true :=
  ⟨rfl, rfl, rfl, rfl, rfl⟩

/-- C9 amended: `parseNotificationTime` raises the validation error
exactly when the trimmed, lowercased literal does not end in `d`, `h`
or `m` AND `parseFloat` finds no numeric prefix in it.  Literals ending
in `d`/`h`/`m` never throw (a non-numeric prefix merely yields a NaN
result), and a numeric prefix followed by junk is accepted as a bare
hour count, so `isValidNotificationTimes` accepts some ill-formed
literals.  On well-formed literals the claimed minute values hold:
days × 1440, hours × 60, minutes as-is, bare decimals as hours. -/
theorem parseNotificationTime_ok_iff (s : String) :
    (isValidNotificationTime s = true ↔
      ((jsToLower (jsTrim s)).data.getLast? = some 'd'
        ∨ (jsToLower (jsTrim s)).data.getLast? = some 'h'
        ∨ (jsToLower (jsTrim s)).data.getLast? = some 'm'
        ∨ (jsParseFloat (jsToLower (jsTrim s)).data).isSome = true))
  ∧ parseNotificationTime "30m" = Except.ok (some 30)
  ∧ parseNotificationTime "4.5h" = Except.ok (some 270)
  ∧ parseNotificationTime "1d" = Except.ok (some 1440)
  ∧ parseNotificationTime "2" = Except.ok (some 120)
  ∧ parseNotificationTime "12abc" = Except.ok (some 720) := by
  refine ⟨?_, rfl, rfl, rfl, rfl, rfl⟩
  unfold isValidNotificationTime parseNotificationTime
  by_cases hd : (jsToLower (jsTrim s)).data.getLast? = some 'd'
  · simp [hd]
  · by_cases hh : (jsToLower (jsTrim s)).data.getLast? = some 'h'
    · simp [hd, hh]
    · by_cases hm : (jsToLower (jsTrim s)).data.getLast? = some 'm'
      · simp [hd, hh, hm]
      · rcases hp : jsParseFloat (jsToLower (jsTrim s)).data with _ | q
        · simp [hd, hh, hm, hp]
        · simp [hd, hh, hm, hp]

/-! ## The notification matcher
(`src/services/notification-service.ts`, dispatch in `src/bot`)

`NotificationService.checkShowNotification` iterates the user's
offset-literal list; for each literal it (1) skips if the suppression
record `(telegram_id, show_id, "upcoming_show_" + literal)` exists,
(2) computes `notificationTime = showStart − minutes` and
`timeDiff = notificationTime − now`, (3) fires when
`timeDiff >= 0 && timeDiff <= 15*60*1000`, awaiting
`TelegramBotService.sendNotification` and THEN inserting the
suppression record.  `sendNotification` catches and only logs a
delivery error, so its promise always resolves.  Times are modelled as
milliseconds on one linear timeline (the local-time `Date` arithmetic
of `parseShowTime`/`setMinutes` on that timeline is exactly a
subtraction of `minutes × 60000` ms). -/

/-- A row of `bot_notifications_sent`
(UNIQUE(telegram_id, show_id, notification_type)). -/
structure SentNotification where
  telegramId : Int
  showId : Int
  notificationType : String
  deriving DecidableEq, Repr

/-- Models `DatabaseManager.isNotificationSent`. -/
def isNotificationSent (sent : List SentNotification) (tid showId : Int)
    (ty : String) : Bool :=
  sent.any fun r =>
    decide (r.telegramId = tid ∧ r.showId = showId ∧ r.notificationType = ty)

/-- Models `DatabaseManager.markNotificationSent`:
`INSERT ... ON CONFLICT(telegram_id, show_id, notification_type) DO NOTHING`. -/
def markNotificationSent (sent : List SentNotification) (tid showId : Int)
    (ty : String) : List SentNotification :=
  if isNotificationSent sent tid showId ty then sent
  else sent ++ [{ telegramId := tid, showId := showId, notificationType := ty }]

/-- State of the Telegram bot side: whether `this.bot` exists, and the
log of successfully delivered messages as (telegramId, showId) pairs. -/
structure BotState where
  botStarted : Bool
  delivered : List (Int × Int)
  deriving DecidableEq, Repr

/-- Models `TelegramBotService.sendNotification` (`src/bot` lines
524-544): returns immediately when the bot is absent; otherwise awaits
`bot.sendMessage` inside try/catch, CATCHING and only logging a
delivery error — the promise resolves in every case, it never rejects.
`deliveryOk` is the transport oracle for this one send. -/
def sendNotification (deliveryOk : Bool) (b : BotState) (tid showId : Int) :
    BotState :=
  if !b.botStarted then b
  else if deliveryOk then { b with delivered := b.delivered ++ [(tid, showId)] }
  else b

/-- Models the in-window test of `checkShowNotification` (line 172):
`timeDiff >= 0 && timeDiff <= 15 * 60 * 1000` with
`timeDiff = notificationTime − now` in milliseconds. -/
def fireWindowCheck (nowMs notificationMs : Int) : Bool :=
  decide (0 ≤ notificationMs - nowMs) && decide (notificationMs - nowMs ≤ 15 * 60 * 1000)

/-- Combined matcher/dispatch state: the suppression table and the bot. -/
structure NotifState where
  sent : List SentNotification
  bot : BotState
  deriving DecidableEq, Repr

/-- Models one iteration of `checkShowNotification`'s loop over the
user's notification-time literals (lines 153-184): suppression check,
offset parse (`parseNotificationTimes(t)[0]`; a thrown parse error is
caught by the per-literal catch and leaves the state unchanged; an
absent or NaN element makes both window comparisons false, firing
nothing), window test, then dispatch followed by record insertion. -/
def processNotificationTime (deliveryOk : Bool) (nowMs showStartMs : Int)
    (tid showId : Int) (st : NotifState) (t : String) : NotifState :=
  let ty := "upcoming_show_" ++ t
  if isNotificationSent st.sent tid showId ty then st
  else
    match parseNotificationTimes t with
    | .error _ => st
    | .ok mins =>
      match mins.head? with
      | none => st
      | some none => st
      | some (some m) =>
        let notificationMs := showStartMs - m * 60 * 1000
        if fireWindowCheck nowMs notificationMs then
          { sent := markNotificationSent st.sent tid showId ty,
            bot := sendNotification deliveryOk st.bot tid showId }
        else st

/-- Milliseconds of the wall-clock time h:m on the day's timeline. -/
def hmMs (h m : Int) : Int := (h * 60 + m) * 60 * 1000

/-- An initial matcher state: bot started, nothing delivered, no
suppression records. -/
def cexNotifState : NotifState :=
  { sent := [], bot := { botStarted := true, delivered := [] } }

/-- C5 counterexample: show start 20:00, offset literal "4h", current
time 16:00 (inside the fire window); the transport FAILS
(`deliveryOk = false`, nothing is delivered) — yet afterwards the
suppression record for (user 7, show 42, "upcoming_show_4h") IS
present, so the next polling pass is suppressed and does not retry.
This refutes the claim that the record is left unset on a delivery
error. -/
theorem failed_dispatch_still_marked_cex :
    (processNotificationTime false (hmMs 16 0) (hmMs 20 0) 7 42 cexNotifState "4h").sent
      = [{ telegramId := 7, showId := 42, notificationType := "upcoming_show_4h" }]
  ∧ (processNotificationTime false (hmMs 16 0) (hmMs 20 0) 7 42 cexNotifState "4h").bot.delivered
      = []
  ∧ isNotificationSent
      (processNotificationTime false (hmMs 16 0) (hmMs 20 0) 7 42 cexNotifState "4h").sent
      7 42 "upcoming_show_4h" = true :=
  ⟨rfl, rfl, rfl⟩

/-- C5 amended: a delivery error is caught and swallowed inside
`sendNotification`, so the dispatch never rejects and the suppression
record is inserted after dispatch REGARDLESS of delivery outcome: the
suppression table after a polling step is independent of whether the
transport succeeded, hence a failed send is never retried.  Only
delivered messages differ. -/
theorem suppression_record_independent_of_delivery (deliveryOk : Bool)
    (nowMs showStartMs tid showId : Int) (st : NotifState) (t : String) :
    (processNotificationTime deliveryOk nowMs showStartMs tid showId st t).sent
      = (processNotificationTime true nowMs showStartMs tid showId st t).sent := by
  unfold processNotificationTime
  dsimp only
  repeat' split
  all_goals rfl

/-- C6 counterexample: for item start 20:00 and offset "4h" the alert
instant is 16:00.  At current time 16:10 — inside the claimed window
[16:00, 16:15) — the code does NOT fire (`timeDiff` is negative), while
at 15:45 — strictly before the alert instant, outside the claimed
window — the code DOES fire; the code also fires at 16:00 sharp and not
at 15:44, matching the spec's two concrete examples even though the
window direction is reversed. -/
theorem fire_window_direction_cex :
    parseNotificationTime "4h" = Except.ok (some 240)
  ∧ hmMs 20 0 - 240 * 60 * 1000 = hmMs 16 0
  ∧ fireWindowCheck (hmMs 16 10) (hmMs 16 0) = false
  ∧ fireWindowCheck (hmMs 15 45) (hmMs 16 0) = true
  ∧ fireWindowCheck (hmMs 15 44) (hmMs 16 0) = false
  ∧ fireWindowCheck (hmMs 16 0) (hmMs 16 0) = true :=
  ⟨rfl, rfl, rfl, rfl, rfl, rfl⟩

/-- C6 amended: for every item start, offset `o` (in minutes) and
current instant `t` (ms), the window test passes exactly when `t` lies
in the CLOSED interval `[start − o − 15min, start − o]` — the 15-minute
fire window immediately PRECEDES the alert instant `start − o` and
includes both endpoints, rather than following it half-open. -/
theorem fireWindowCheck_iff (startMs o nowMs : Int) :
    fireWindowCheck nowMs (startMs - o * 60 * 1000) = true
  ↔ (startMs - o * 60 * 1000 - 15 * 60 * 1000 ≤ nowMs
      ∧ nowMs ≤ startMs - o * 60 * 1000) := by
  unfold fireWindowCheck
  rw [Bool.and_eq_true, decide_eq_true_iff, decide_eq_true_iff]
  omega

/-! ## The page extractor (`src/scraper/index.ts`)

`ScheduleScraper.parseShows` selects the
`.item[itemtype="http://schema.org/BroadcastEvent"]` blocks and runs
`parseShowItem` on each inside try/catch; `parseShowItem` reads the
start-time span, the sibling end-time span (falling back to a
`T<HH:MM>` substring of the `content` attribute, then to
`calculateEndTime`), the DJ text (falling back to the nested link
text), title and style.  An `ItemBlock` carries exactly the strings the
cheerio selectors produce for one block. -/

/-- Fields the cheerio selectors read from one schedule item block.
`none` in `startSpan` models an absent `span[itemprop="startDate"]`
(`$startTime.length === 0`); `none` in `nextSpanText` models an absent
sibling span; `none` in `startContentAttr` models an absent `content`
attribute. -/
structure ItemBlock where
  startSpan : Option String
  startContentAttr : Option String
  nextSpanText : Option String
  djText : String
  djLinkText : String
  titleText : String
  styleText : String
  deriving DecidableEq, Repr

/-- Models the regex search `content.match(/T(\d{2}:\d{2})/)`: the first
`T` followed by two digits, a colon and two digits, returning the
captured `HH:MM`. -/
def findEmbeddedTime : List Char → Option String
  | [] => none
  | c0 :: rest =>
    match c0, rest with
    | 'T', a :: b :: ':' :: c :: d :: _ =>
      if a.isDigit && b.isDigit && c.isDigit && d.isDigit then some ⟨[a, b, ':', c, d]⟩
      else findEmbeddedTime rest
    | _, _ => findEmbeddedTime rest

/-- Models JS `Number()` on the components produced by splitting a time
field on `:`, restricted to the shapes that denote a nonnegative
integer: the empty string (`Number('') = 0`), a digit run, and a digit
run followed by a dot and zeros (`Number("20.00") = 20`, `"20."` = 20).
A component JS would read as a fractional number (e.g. `"2.5"`), as a
signed/exponent/whitespace-padded numeral, or as NaN, is uniformly
modelled as `none` (NaN); every theorem below evaluates this function
on digit runs only, where the model is exact. -/
def jsNumberNat (l : List Char) : Option Nat :=
  if l.isEmpty then some 0
  else
    let intDs := l.takeWhile Char.isDigit
    match l.dropWhile Char.isDigit with
    | [] => some (digitsToNat intDs)
    | '.' :: frac =>
      if intDs.isEmpty then none
      else if frac.all fun c => decide (c = '0') then some (digitsToNat intDs)
      else none
    | _ => none

/-- Models JS `String.prototype.padStart(2, '0')`. -/
def padStart2 (s : String) : String :=
  if 2 ≤ s.length then s else ⟨List.replicate (2 - s.length) '0' ++ s.data⟩

/-- Models `ScheduleScraper.calculateEndTime` (`scraper/index.ts` lines
154-159): split the start time on `:`, convert with `Number`, add two
hours modulo 24, and re-format both components zero-padded to width 2.
When the split yields fewer than two components, the destructuring
leaves `minutes` as `undefined` and `minutes.toString()` THROWS a
TypeError — modelled as `none` (a split never yields zero components,
so `hours` is always a number).  A NaN component does not throw: it
prints as the string `NaN`. -/
def calculateEndTime (startTime : String) : Option String :=
  let parts := (splitOnChar ':' startTime.data).map jsNumberNat
  match parts with
  | hours :: minutes :: _ =>
    let endHoursStr :=
      match hours with
      | some h => Nat.repr ((h + 2) % 24)
      | none => "NaN"
    let minutesStr :=
      match minutes with
      | some m => Nat.repr m
      | none => "NaN"
    some (padStart2 endHoursStr ++ ":" ++ padStart2 minutesStr)
  | _ => none

/-- Models the end-time extraction chain of `parseShowItem` (lines
107-122): the trimmed text of the sibling span when present, else the
embedded `T<HH:MM>` match of the `content` attribute, else the empty
string. -/
def resolveEndTime (b : ItemBlock) : String :=
  match b.nextSpanText with
  | some s => jsTrim s
  | none =>
    match b.startContentAttr with
    | some content =>
      match findEmbeddedTime content.data with
      | some hm => hm
      | none => ""
    | none => ""

/-- Models `ScheduleScraper.parseShowItem` (lines 95-152): drop the item
when the start span is missing; resolve the end time through the
sibling-span / content-attribute chain; resolve the DJ through the
text / link-text fallback; validate that start, dj and title are
non-empty after trimming; then build the record, with the end
synthesized by `calculateEndTime` when the chain produced nothing and
the style defaulted to "Unknown".  A TypeError thrown by
`calculateEndTime` during the record construction propagates
(`Option.map` of its `none`); the caller's per-item catch turns either
outcome — the `return null` and the throw — into the same skip, so
both surface here as `none`. -/
def parseShowItem (b : ItemBlock) : Option ScrapedShow :=
  match b.startSpan with
  | none => none
  | some rawStart =>
    let startTime := jsTrim rawStart
    let endTime := resolveEndTime b
    let dj := if jsTrim b.djText = "" then jsTrim b.djLinkText else jsTrim b.djText
    let title := jsTrim b.titleText
    let style := jsTrim b.styleText
    if startTime = "" ∨ dj = "" ∨ title = "" then none
    else
      (if endTime = "" then calculateEndTime startTime else some endTime).map fun e =>
        { dj := dj, title := title, start := startTime, endTime := e,
          style := if style = "" then "Unknown" else style }

/-- Models `ScheduleScraper.parseShows` (lines 76-93): run
`parseShowItem` on every block in page order, keeping the successful
ones; a failed block — a `null` return or a thrown TypeError, both
`none` here — is logged and skipped without aborting the rest
(the per-item try/catch). -/
def parseShows : List ItemBlock → List ScrapedShow
  | [] => []
  | b :: rest =>
    match parseShowItem b with
    | some s => s :: parseShows rest
    | none => parseShows rest

theorem dropWhile_eq_self_of_all (p : Char → Bool) (l : List Char)
    (hl : l.all (fun c => !p c) = true) : l.dropWhile p = l := by
  cases l with
  | nil => rfl
  | cons x xs =>
    rw [List.all_cons, Bool.and_eq_true] at hl
    cases hp : p x with
    | false => exact List.dropWhile_cons_of_neg (by simp [hp])
    | true =>
      have h1 := hl.1
      rw [hp] at h1
      cases h1

theorem jsTrim_eq_self (s : String)
    (hs : s.data.all (fun c => !c.isWhitespace) = true) : jsTrim s = s := by
  unfold jsTrim
  rw [dropWhile_eq_self_of_all _ _ hs,
    dropWhile_eq_self_of_all _ _ (by rw [List.all_reverse]; exact hs),
    List.reverse_reverse]

theorem pad2_chars : ∀ n < 100,
    (padStart2 (Nat.repr n)).data.all
      (fun c => !c.isWhitespace && !decide (c = ':')) = true := by
  decide

theorem pad2_value : ∀ n < 100,
    jsNumberNat (padStart2 (Nat.repr n)).data = some n := by
  decide

theorem colon_not_mem_pad2 (n : Nat) (hn : n < 100) :
    ':' ∉ (padStart2 (Nat.repr n)).data := by
  intro hmem
  have h := pad2_chars n hn
  rw [List.all_eq_true] at h
  exact absurd (h _ hmem) (by decide)

/-- A canonical zero-padded time string, as the upstream pages format
their `HH:MM` time fields. -/
def timeHM (h m : Nat) : String :=
  padStart2 (Nat.repr h) ++ ":" ++ padStart2 (Nat.repr m)

theorem timeHM_data (h m : Nat) :
    (timeHM h m).data
      = (padStart2 (Nat.repr h)).data ++ ':' :: (padStart2 (Nat.repr m)).data := by
  unfold timeHM
  rw [String.data_append, String.data_append, List.append_assoc]
  rfl

theorem splitOnChar_of_not_mem (c : Char) (l : List Char) (h : c ∉ l) :
    splitOnChar c l = [l] := by
  induction l with
  | nil => rfl
  | cons x xs ih =>
    rw [List.mem_cons, not_or] at h
    have hxc : ¬ x = c := fun hxc => h.1 hxc.symm
    simp only [splitOnChar, if_neg hxc]
    rw [ih h.2]

theorem splitOnChar_append (c : Char) (xs ys : List Char) (h : c ∉ xs) :
    splitOnChar c (xs ++ c :: ys) = xs :: splitOnChar c ys := by
  induction xs with
  | nil => simp [splitOnChar]
  | cons x xs ih =>
    rw [List.mem_cons, not_or] at h
    have hxc : ¬ x = c := fun hxc => h.1 hxc.symm
    simp only [List.cons_append, splitOnChar, if_neg hxc, List.append_eq]
    rw [ih h.2]

theorem calculateEndTime_timeHM (h m : Nat) (hh : h < 100) (hm : m < 100) :
    calculateEndTime (timeHM h m) = some (timeHM ((h + 2) % 24) m) := by
  unfold calculateEndTime
  rw [timeHM_data,
    splitOnChar_append _ _ _ (colon_not_mem_pad2 h hh),
    splitOnChar_of_not_mem _ _ (colon_not_mem_pad2 m hm),
    List.map_cons, List.map_cons, List.map_nil,
    pad2_value h hh, pad2_value m hm]
  rfl

theorem timeHM_no_ws (h m : Nat) (hh : h < 100) (hm : m < 100) :
    (timeHM h m).data.all (fun c => !c.isWhitespace) = true := by
  rw [timeHM_data, List.all_append, List.all_cons, Bool.and_eq_true, Bool.and_eq_true]
  refine ⟨?_, by decide, ?_⟩
  · rw [List.all_eq_true]
    intro c hc
    have h1 := pad2_chars h hh
    rw [List.all_eq_true] at h1
    have h2 := h1 _ hc
    rw [Bool.and_eq_true] at h2
    exact h2.1
  · rw [List.all_eq_true]
    intro c hc
    have h1 := pad2_chars m hm
    rw [List.all_eq_true] at h1
    have h2 := h1 _ hc
    rw [Bool.and_eq_true] at h2
    exact h2.1

theorem timeHM_ne_empty (h m : Nat) : timeHM h m ≠ "" := by
  intro heq
  have hdata : (timeHM h m).data = [] := by rw [heq]
  rw [timeHM_data] at hdata
  exact absurd hdata (by simp)

/-- C7: an extracted item with a start-time field `HH:MM` but no sibling
end-time span and no embedded `T<HH:MM>` timestamp in the
machine-readable start attribute gets its end time synthesized as
start + 2 hours with wrap past midnight: the accepted item's end time
is `((HH+2) mod 24):MM` — in particular start 23:30 yields end 01:30
(witness below). -/
theorem end_time_synthesized (h m : Nat) (hh : h < 24) (hm : m < 60)
    (attr : Option String)
    (hattr : ∀ a, attr = some a → findEmbeddedTime a.data = none)
    (dj title style : String) (hdj : jsTrim dj ≠ "") (htitle : jsTrim title ≠ "") :
    parseShowItem
        { startSpan := some (timeHM h m), startContentAttr := attr,
          nextSpanText := none, djText := dj, djLinkText := "",
          titleText := title, styleText := style }
      = some { dj := jsTrim dj, title := jsTrim title, start := timeHM h m,
               endTime := timeHM ((h + 2) % 24) m,
               style := if jsTrim style = "" then "Unknown" else jsTrim style } := by
  have hh100 : h < 100 := lt_trans hh (by norm_num)
  have hm100 : m < 100 := lt_trans hm (by norm_num)
  have htrim : jsTrim (timeHM h m) = timeHM h m :=
    jsTrim_eq_self _ (timeHM_no_ws h m hh100 hm100)
  have hcet := calculateEndTime_timeHM h m hh100 hm100
  have hcond : ¬ (jsTrim (timeHM h m) = ""
      ∨ (if jsTrim dj = "" then jsTrim "" else jsTrim dj) = ""
      ∨ jsTrim title = "") := by
    push_neg
    refine ⟨by rw [htrim]; exact timeHM_ne_empty h m, ?_, htitle⟩
    rw [if_neg hdj]
    exact hdj
  cases attr with
  | none =>
    have hres : resolveEndTime
        { startSpan := some (timeHM h m), startContentAttr := none,
          nextSpanText := none, djText := dj, djLinkText := "",
          titleText := title, styleText := style } = "" := rfl
    unfold parseShowItem
    dsimp only
    rw [if_neg hcond, hres, if_pos rfl, htrim, hcet]
    simp [hdj, htrim]
  | some a =>
    have hres : resolveEndTime
        { startSpan := some (timeHM h m), startContentAttr := some a,
          nextSpanText := none, djText := dj, djLinkText := "",
          titleText := title, styleText := style } = "" := by
      simp [resolveEndTime, hattr a rfl]
    unfold parseShowItem
    dsimp only
    rw [if_neg hcond, hres, if_pos rfl, htrim, hcet]
    simp [hdj, htrim]

theorem end_time_synthesized_witness :
    timeHM 23 30 = "23:30" ∧ timeHM ((23 + 2) % 24) 30 = "01:30"
  ∧ parseShowItem
        { startSpan := some (timeHM 23 30), startContentAttr := none,
          nextSpanText := none, djText := "DJ Cloud Seven", djLinkText := "",
          titleText := "Night Show", styleText := "HandsUp" }
      = some { dj := jsTrim "DJ Cloud Seven", title := jsTrim "Night Show",
               start := timeHM 23 30, endTime := timeHM ((23 + 2) % 24) 30,
               style := if jsTrim "HandsUp" = "" then "Unknown"
                        else jsTrim "HandsUp" } :=
  ⟨rfl, rfl,
    end_time_synthesized 23 30 (by decide) (by decide) none
      (fun a ha => nomatch ha) "DJ Cloud Seven" "Night Show" "HandsUp"
      (by decide) (by decide)⟩

/-- The well-formed block of the spec's extractor-tolerance scenario. -/
def goodBlock : ItemBlock :=
  { startSpan := some "20:00", startContentAttr := none,
    nextSpanText := some "22:00", djText := "DJ Cloud Seven", djLinkText := "",
    titleText := "Night Show", styleText := "HandsUp" }

/-- The malformed block: its title is blank after trimming. -/
def missingTitleBlock : ItemBlock :=
  { startSpan := some "22:00", startContentAttr := none,
    nextSpanText := some "23:59", djText := "DJ Coyote", djLinkText := "",
    titleText := "   ", styleText := "" }

/-- C8: the extractor accepts an item only if its start-time span exists
and start, dj (after the nested-link fallback) and title are all
non-empty after trimming — every accepted item carries exactly those
trimmed fields, with the style defaulting to the literal "Unknown" when
blank.  (Acceptance additionally requires the end-time construction not
to throw, so non-emptiness is necessary, not sufficient.)  Per-item
failures — a dropped field or a thrown TypeError — are isolated:
`parseShows` is the per-block filterMap, so one bad block never aborts
the rest, and a page with one well-formed item and one item whose title
is missing yields exactly one accepted item. -/
theorem extractor_acceptance (blocks : List ItemBlock) (b : ItemBlock)
    (s : ScrapedShow) :
    parseShows blocks = blocks.filterMap parseShowItem
  ∧ (parseShowItem b = some s →
      (∃ raw, b.startSpan = some raw ∧ jsTrim raw ≠ "" ∧ s.start = jsTrim raw)
      ∧ s.dj = (if jsTrim b.djText = "" then jsTrim b.djLinkText else jsTrim b.djText)
      ∧ s.dj ≠ ""
      ∧ s.title = jsTrim b.titleText
      ∧ s.title ≠ ""
      ∧ s.style = (if jsTrim b.styleText = "" then "Unknown" else jsTrim b.styleText))
  ∧ (parseShows [goodBlock, missingTitleBlock]).length = 1 := by
  refine ⟨?_, ?_, rfl⟩
  · induction blocks with
    | nil => rfl
    | cons c cs ih =>
      simp only [parseShows, List.filterMap_cons]
      cases parseShowItem c <;> simp [ih]
  · intro hsome
    cases hb : b.startSpan with
    | none =>
      unfold parseShowItem at hsome
      rw [hb] at hsome
      cases hsome
    | some raw =>
      unfold parseShowItem at hsome
      rw [hb] at hsome
      dsimp only at hsome
      by_cases hcond : jsTrim raw = ""
          ∨ (if jsTrim b.djText = "" then jsTrim b.djLinkText else jsTrim b.djText) = ""
          ∨ jsTrim b.titleText = ""
      · rw [if_pos hcond] at hsome
        cases hsome
      · rw [if_neg hcond] at hsome
        push_neg at hcond
        rw [Option.map_eq_some'] at hsome
        obtain ⟨e, he, heq⟩ := hsome
        rw [← heq]
        exact ⟨⟨raw, rfl, hcond.1, rfl⟩, rfl, hcond.2.1, rfl, hcond.2.2, rfl⟩

theorem extractor_acceptance_witness :
    parseShows [goodBlock, missingTitleBlock]
        = [goodBlock, missingTitleBlock].filterMap parseShowItem
  ∧ (parseShows [goodBlock, missingTitleBlock]).length = 1
  ∧ ({ dj := "DJ Cloud Seven", title := "Night Show", start := "20:00",
       endTime := "22:00", style := "HandsUp" } : ScrapedShow).style
      = (if jsTrim goodBlock.styleText = "" then "Unknown"
         else jsTrim goodBlock.styleText)
  ∧ ({ dj := "DJ Cloud Seven", title := "Night Show", start := "20:00",
       endTime := "22:00", style := "HandsUp" } : ScrapedShow).title ≠ "" := by
  obtain ⟨h1, h2, h3⟩ := extractor_acceptance [goodBlock, missingTitleBlock] goodBlock
      { dj := "DJ Cloud Seven", title := "Night Show", start := "20:00",
        endTime := "22:00", style := "HandsUp" }
  have h4 := h2 rfl
  exact ⟨h1, h3, h4.2.2.2.2.2, h4.2.2.2.2.1⟩

end WaoBase
